import Mathlib

/-!
Shallow embedding of `src/turing.py`, a single-tape deterministic Turing
machine simulator, together with proofs checking the specification's claims
against it.

Conventions of the embedding:
* Python strings used as tape content are lists of characters (the code
  builds the tape with `list(self.blank + string + self.blank)`, so tape
  cells are single characters); state names stay `String`.
* Python exceptions are explicit: `PyErr` covers the exceptions the code can
  raise (`KeyError` from dict / `Enum` lookups, `IndexError` from list
  indexing past either bound, `AttributeError` from a missing attribute).
* `sys.exit(0)` — which terminates the whole process — is the distinguished
  outcome `RunResult.SysExit`.
* Python list indexing semantics (negative indices wrap, out-of-range
  raises) is modelled by `listIndex` / `pyGet` / `pySet`.
* The unbounded `while` loop of `accepts_string` is modelled with explicit
  fuel; `none` means the loop has not halted within the given fuel.
-/

namespace TuringSim

/-- Python exceptions relevant to `turing.py`. -/
inductive PyErr where
  | KeyError
  | IndexError
  | AttributeError
deriving DecidableEq, BEq

abbrev State := String
abbrev Sym := Char

/-- The `Movement` enum of the source: member `R` has value `1`, member `L`
has value `-1`. -/
inductive Movement where
  | R
  | L
deriving DecidableEq, BEq

/-- The `.value` of a `Movement` member. -/
def Movement.value : Movement → Int
  | .R => 1
  | .L => -1

/-- `Movement[direction]`: Enum lookup by member name; any other name raises
`KeyError`. -/
def movementFromName : String → Option Movement
  | "R" => some Movement.R
  | "L" => some Movement.L
  | _ => none

/-- A transition-table entry `(next_state, write_sym, movement)` as stored in
the nested dict `delta_fun.transitions[state][symbol]`. -/
abbrev DeltaEntry := State × Sym × String

/-- The machine model: the fields of `TuringMachine.__init__`. The nested
transition dict is an association list state ↦ (symbol ↦ entry). `end` is a
Lean keyword, so that field is called `ends`. -/
structure TuringMachine where
  states : List State
  in_alph : List Sym
  tp_alph : List Sym
  start : State
  blank : Sym
  ends : List State
  reject : State
  delta : List (State × List (Sym × DeltaEntry))
deriving DecidableEq

/-- `DeltaFunction.apply`: `self.transitions[state][symbol]`; `none` models
the `KeyError` raised when either key is absent. -/
def deltaApply (tm : TuringMachine) (q : State) (a : Sym) : Option DeltaEntry :=
  match List.lookup q tm.delta with
  | none => none
  | some row => List.lookup a row

/-- The `Configuration` triplet `(state, string_list, position)`. The
position is an `Int`: the code lets it go negative. -/
structure Configuration where
  state : State
  string_list : List Sym
  position : Int
deriving DecidableEq

/-- Effective index of Python list indexing `l[i]` for a list of length
`len`: in-range indices are used as-is, negative indices of magnitude at most
`len` wrap around from the right end, anything else raises `IndexError`
(modelled as `none`). -/
def listIndex (len : Nat) (i : Int) : Option Nat :=
  if 0 ≤ i ∧ i < (len : Int) then some i.toNat
  else if -(len : Int) ≤ i ∧ i < 0 then some ((len : Int) + i).toNat
  else none

/-- Python `l[i]` (read). -/
def pyGet (l : List α) (i : Int) : Option α :=
  match listIndex l.length i with
  | some k => l.get? k
  | none => none

/-- Python `l[i] = a` (write). The `none` branch (which would raise
`IndexError`) returns `l` unchanged; in the code every write is preceded by a
successful read at the same index, so that branch is never taken. -/
def pySet (l : List α) (i : Int) (a : α) : List α :=
  match listIndex l.length i with
  | some k => l.set k a
  | none => l

/-- `TuringMachine._get_next_configuration`: read `string_list[position]`
(may raise `IndexError`), look the pair up in the transition dict (may raise
`KeyError`), convert the movement name through `Movement[direction]` (may
raise `KeyError`), and otherwise produce the updated configuration. -/
def get_next_configuration (tm : TuringMachine) (c : Configuration) :
    Except PyErr Configuration :=
  match pyGet c.string_list c.position with
  | none => .error .IndexError
  | some sym =>
    match deltaApply tm c.state sym with
    | none => .error .KeyError
    | some (new_state, write_sym, direction) =>
      match movementFromName direction with
      | none => .error .KeyError
      | some m =>
        .ok { state := new_state,
              string_list := pySet c.string_list c.position write_sym,
              position := c.position + m.value }

/-- Outcome of `accepts_string`. `Accepted`/`Rejected` are the `True`/`False`
returns; `SysExit` is `sys.exit(0)` (whole-process termination) from
`_string_is_valid`; `Exn e` is an exception escaping `accepts_string`
uncaught. -/
inductive RunResult where
  | Accepted
  | Rejected
  | SysExit
  | Exn (e : PyErr)
deriving DecidableEq, BEq

/-- The `while` loop of `accepts_string`, with fuel. The loop condition
`state not in end` is tested first; then the explicit-reject test; then one
step, whose `KeyError` is caught (`return False`) while any other exception
escapes. -/
def acceptsLoop (tm : TuringMachine) : Configuration → Nat → Option RunResult
  | _, 0 => none
  | c, fuel + 1 =>
    if c.state ∈ tm.ends then some .Accepted
    else if c.state = tm.reject then some .Rejected
    else
      match get_next_configuration tm c with
      | .error .KeyError => some .Rejected
      | .error e => some (.Exn e)
      | .ok c' => acceptsLoop tm c' fuel

/-- `TuringMachine._string_is_valid` as a predicate: every character of the
input is a member of `in_alph` (the code iterates the string's characters);
when it fails the code prints and calls `sys.exit(0)`. -/
def string_is_valid (tm : TuringMachine) (s : String) : Bool :=
  s.toList.all fun ch => decide (ch ∈ tm.in_alph)

/-- The initial configuration built by `accepts_string`:
`Configuration(start, list(blank + string + blank), 1)`. -/
def initialConfiguration (tm : TuringMachine) (s : String) : Configuration :=
  { state := tm.start,
    string_list := (String.singleton tm.blank ++ s ++ String.singleton tm.blank).toList,
    position := 1 }

/-- `TuringMachine.accepts_string` (the `verbose` printing has no effect on
the verdict and is omitted): validate the input (exiting the process on
failure), build the initial configuration, run the loop. -/
def accepts_string (tm : TuringMachine) (s : String) (fuel : Nat) :
    Option RunResult :=
  if string_is_valid tm s then acceptsLoop tm (initialConfiguration tm s) fuel
  else some .SysExit

/-- `TuringMachine._tm_is_valid`: the four checks of the `elif` chain; any
failing check prints and calls `sys.exit(0)`. -/
def tm_is_valid (tm : TuringMachine) : Bool :=
  if ¬ (tm.in_alph.all fun a => decide (a ∈ tm.tp_alph)) then false
  else if tm.blank ∉ tm.tp_alph then false
  else if tm.start ∉ tm.states then false
  else if ¬ (tm.ends.all fun q => decide (q ∈ tm.states)) then false
  else true

/-- `TuringMachine.__init__`: store the fields, then `_tm_is_valid`; `none`
models the `sys.exit(0)` taken when validation fails, so no machine object is
produced. -/
def mkTuringMachine (states : List State) (in_alph tp_alph : List Sym)
    (start : State) (blank : Sym) (ends : List State) (reject : State)
    (delta : List (State × List (Sym × DeltaEntry))) : Option TuringMachine :=
  let tm : TuringMachine :=
    { states := states, in_alph := in_alph, tp_alph := tp_alph, start := start,
      blank := blank, ends := ends, reject := reject, delta := delta }
  if tm_is_valid tm then some tm else none

/-- `TuringMachine._get_language_of_size` exactly as written: the generator
yields `""` when `n <= 0`; otherwise its body iterates `self.in_alph` and,
for each symbol, evaluates `self.get_language_of_size(n - 1)` — an attribute
that does not exist (the method is named `_get_language_of_size`), raising
`AttributeError` on the first symbol. With an empty alphabet the outer loop
body never runs and the generator is exhausted without error. -/
def get_language_of_size_asWritten (tm : TuringMachine) (n : Int) :
    Except PyErr (List String) :=
  if n ≤ 0 then .ok [""]
  else if tm.in_alph.isEmpty then .ok []
  else .error .AttributeError

/-- `TuringMachine._language` exactly as written: before yielding anything it
evaluates `self.get_language_of_size(0)` — an attribute that does not exist —
so the first pull raises `AttributeError`; pulling nothing observes nothing.
The argument is the number of elements pulled from the generator. -/
def language_asWritten (_tm : TuringMachine) (pulls : Nat) :
    Except PyErr (List String) :=
  if pulls = 0 then .ok [] else .error .AttributeError

/-- `TuringMachine.accepted_language` exactly as written: the generator body
starts with `language = self.language()` — an attribute that does not exist
(the method is named `_language`) — so the first pull raises
`AttributeError`. The argument is the number of elements pulled. -/
def accepted_language_asWritten (_tm : TuringMachine) (pulls : Nat) :
    Except PyErr (List String) :=
  if pulls = 0 then .ok [] else .error .AttributeError

/-- `_get_language_of_size` with the name slip repaired (the recursive call
reading `self._get_language_of_size(n - 1)` as its docstring and the rest of
the class intend): all strings of length `n` over `in_alph`, in generator
order — outer loop over the alphabet, inner loop over the strings one
shorter. -/
def get_language_of_size_fixed (tm : TuringMachine) : Nat → List String
  | 0 => [""]
  | n + 1 =>
    tm.in_alph.flatMap fun s =>
      (get_language_of_size_fixed tm n).map fun w => String.singleton s ++ w

/-- `_language` with the name slip repaired: the concatenation of the
length-`n` blocks for `n = 0, 1, 2, ...`, cut off at length `bound` to stay
finite. -/
def language_fixed (tm : TuringMachine) (bound : Nat) : List String :=
  (List.range bound).flatMap (get_language_of_size_fixed tm)

/-- `accepted_language` with the name slips repaired (`self._language()`,
`self.accepts_string(w)`): filter the enumeration through the engine. -/
def accepted_language_fixed (tm : TuringMachine) (bound fuel : Nat) :
    List String :=
  (language_fixed tm bound).filter fun w =>
    accepts_string tm w fuel == some RunResult.Accepted

/-- Reflexive-transitive closure of one successful step of the engine. -/
inductive Reaches (tm : TuringMachine) : Configuration → Configuration → Prop
  | refl (c : Configuration) : Reaches tm c c
  | step (c c' c'' : Configuration) :
      get_next_configuration tm c = .ok c' → Reaches tm c' c'' →
      Reaches tm c c''

/-- A machine accepting exactly the even-length strings of `"0"`s: `q0` and
`q1` count parity while scanning right; on the blank, `q0` accepts and `q1`
has no transition (implicit reject). -/
def evenZeros : TuringMachine :=
  { states := ["q0", "q1", "qa", "qr"],
    in_alph := ['0'],
    tp_alph := ['0', 'B'],
    start := "q0",
    blank := 'B',
    ends := ["qa"],
    reject := "qr",
    delta := [("q0", [('0', ("q1", '0', "R")), ('B', ("qa", 'B', "R"))]),
              ("q1", [('0', ("q0", '0', "R"))])] }

/-- A machine whose head runs off the right end of the tape: from `q0` it
always moves right, with a transition defined on both tape symbols, so after
leaving the trailing sentinel blank the next read is out of range. -/
def tmRight : TuringMachine :=
  { states := ["q0", "qa", "qr"],
    in_alph := ['a'],
    tp_alph := ['a', 'B'],
    start := "q0",
    blank := 'B',
    ends := ["qa"],
    reject := "qr",
    delta := [("q0", [('a', ("q0", 'a', "R")), ('B', ("q0", 'B', "R"))])] }

/-- A two-symbol machine used only for enumeration-order checks; alphabet
iteration order is `a` before `b`. -/
def tmAB : TuringMachine :=
  { states := ["q0"],
    in_alph := ['a', 'b'],
    tp_alph := ['a', 'b', 'B'],
    start := "q0",
    blank := 'B',
    ends := [],
    reject := "q0",
    delta := [] }

/-- A machine whose start state is simultaneously in `end` and equal to
`reject`. -/
def tmOverlap : TuringMachine :=
  { states := ["q0"],
    in_alph := ['a'],
    tp_alph := ['a', 'B'],
    start := "q0",
    blank := 'B',
    ends := ["q0"],
    reject := "q0",
    delta := [] }

/-- A machine with a transition whose movement field is neither `"R"` nor
`"L"`. -/
def tmBadMove : TuringMachine :=
  { states := ["q0", "qa", "qr"],
    in_alph := ['a'],
    tp_alph := ['a', 'B'],
    start := "q0",
    blank := 'B',
    ends := ["qa"],
    reject := "qr",
    delta := [("q0", [('a', ("qa", 'a', "X")), ('B', ("qa", 'B', "X"))])] }

/-- Writing a cell never changes the tape length. -/
lemma pySet_length (l : List α) (i : Int) (a : α) :
    (pySet l i a).length = l.length := by
  unfold pySet
  cases listIndex l.length i <;> simp

/-- One successful step never changes the tape length. -/
lemma step_length (tm : TuringMachine) (c c' : Configuration)
    (h : get_next_configuration tm c = .ok c') :
    c'.string_list.length = c.string_list.length := by
  cases hget : pyGet c.string_list c.position with
  | none => simp [get_next_configuration, hget] at h
  | some sym =>
    cases hδ : deltaApply tm c.state sym with
    | none => simp [get_next_configuration, hget, hδ] at h
    | some e =>
      obtain ⟨ns, ws, dir⟩ := e
      cases hm : movementFromName dir with
      | none => simp [get_next_configuration, hget, hδ, hm] at h
      | some m =>
        simp [get_next_configuration, hget, hδ, hm] at h
        rw [← h]
        simp [pySet_length]

/-- Tape length is invariant along any chain of successful steps. -/
lemma reaches_length (tm : TuringMachine) (c c' : Configuration)
    (h : Reaches tm c c') : c'.string_list.length = c.string_list.length := by
  induction h with
  | refl c => rfl
  | step c c' c'' hstep _ ih => rw [ih, step_length tm c c' hstep]

/-- The tape built by `accepts_string` is the blank, then the input's
characters, then the blank. -/
lemma initial_string_list (tm : TuringMachine) (s : String) :
    (initialConfiguration tm s).string_list =
      tm.blank :: s.toList ++ [tm.blank] := by
  obtain ⟨data⟩ := s
  show (String.append (String.append (String.singleton tm.blank) ⟨data⟩)
    (String.singleton tm.blank)).data = _
  simp [String.singleton, String.push, String.toList, String.append]

/-- C5: in a machine where some state is simultaneously a member of `end`
and equal to `reject`, any loop iteration entered at a configuration in that
state returns `Accepted`: the `end`-membership test is the `while` loop's
exit condition and is evaluated before the reject check. -/
theorem claim_C5 (tm : TuringMachine) (c : Configuration) (fuel : Nat)
    (hend : c.state ∈ tm.ends) (_hrej : c.state = tm.reject) :
    acceptsLoop tm c (fuel + 1) = some RunResult.Accepted := by
  simp [acceptsLoop, hend]

/-- Witness for C5 at the machine `tmOverlap`, whose start state `q0` is both
the only accepting state and the reject state. -/
theorem claim_C5_witness :
    acceptsLoop tmOverlap ⟨"q0", ['B', 'a', 'B'], 1⟩ 1 = some RunResult.Accepted :=
  claim_C5 tmOverlap ⟨"q0", ['B', 'a', 'B'], 1⟩ 0 (by decide) (by decide)

/-- C6: constructing a machine model fails (the constructor prints and calls
`sys.exit(0)`, producing no machine — modelled as `none`) exactly when
`in_alph` is not a subset of `tp_alph`, or `blank` is not in `tp_alph`, or
`start` is not in `states`, or `end` is not a subset of `states`; otherwise
construction succeeds. -/
theorem claim_C6 (states : List State) (in_alph tp_alph : List Sym)
    (start : State) (blank : Sym) (ends : List State) (reject : State)
    (delta : List (State × List (Sym × DeltaEntry))) :
    mkTuringMachine states in_alph tp_alph start blank ends reject delta = none ↔
      (¬ ∀ a ∈ in_alph, a ∈ tp_alph) ∨ blank ∉ tp_alph ∨ start ∉ states ∨
        ¬ ∀ q ∈ ends, q ∈ states := by
  simp only [mkTuringMachine, tm_is_valid]
  by_cases h1 : ∀ a ∈ in_alph, a ∈ tp_alph <;>
    by_cases h2 : blank ∈ tp_alph <;>
      by_cases h3 : start ∈ states <;>
        by_cases h4 : ∀ q ∈ ends, q ∈ states <;>
          simp [h1, h2, h3, h4] <;> tauto

/-- C7 counterexample: on an input containing a character outside `in_alph`
(`tmRight` has `in_alph = ['a']`), `accepts_string` does not raise a failure
fatal to that run only: it reaches `sys.exit(0)` — whole-process termination,
modelled as `RunResult.SysExit` — after which no machine model remains usable
for any input. -/
theorem claim_C7_cex :
    accepts_string tmRight ("x") 5 = some RunResult.SysExit := by decide

/-- C7 as amended: `accepts_string` first validates that every character of
the input is a member of `in_alph`; when some character is not, it prints a
message and terminates the whole process via `sys.exit(0)` — regardless of
the transition table or fuel, and before any step is taken — while a valid
input proceeds to the run loop on the initial configuration. -/
theorem claim_C7_amended (tm : TuringMachine) (s : String) (fuel : Nat) :
    (string_is_valid tm s = false →
      accepts_string tm s fuel = some RunResult.SysExit) ∧
    (string_is_valid tm s = true →
      accepts_string tm s fuel =
        acceptsLoop tm (initialConfiguration tm s) fuel) := by
  constructor <;> intro h <;> simp [accepts_string, h]

/-- Witness for the amended C7 at a concrete invalid input. -/
theorem claim_C7_amended_witness :
    accepts_string tmRight ("xa") 3 = some RunResult.SysExit :=
  (claim_C7_amended tmRight ("xa") 3).1 (by decide)

/-- C8: a step whose `(state, tape[head])` pair has a transition entry and a
recognized movement name produces exactly the configuration with the entry's
next state, the entry's symbol written at the head cell, and the head moved
by `+1` for `R` and `-1` for `L`; the tape keeps its length and every other
cell keeps its value. -/
theorem claim_C8 (tm : TuringMachine) (c : Configuration) (sym : Sym)
    (ns : State) (ws : Sym) (dir : String) (m : Movement) (k : Nat)
    (hk : listIndex c.string_list.length c.position = some k)
    (hget : c.string_list[k]? = some sym)
    (hδ : deltaApply tm c.state sym = some (ns, ws, dir))
    (hm : movementFromName dir = some m) :
    get_next_configuration tm c =
      .ok { state := ns, string_list := c.string_list.set k ws,
            position := c.position + m.value } ∧
    (c.string_list.set k ws).length = c.string_list.length ∧
    (c.string_list.set k ws).get? k = some ws ∧
    (∀ j : Nat, j ≠ k → (c.string_list.set k ws).get? j = c.string_list.get? j) ∧
    (dir = "R" → m.value = 1) ∧ (dir = "L" → m.value = -1) := by
  have hlen : k < c.string_list.length := by
    by_contra hge
    rw [List.getElem?_eq_none (Nat.le_of_not_lt hge)] at hget
    exact absurd hget (by simp)
  refine ⟨?_, by simp, ?_, ?_, ?_, ?_⟩
  · simp [get_next_configuration, pyGet, pySet, hk, hget, hδ, hm]
  · rw [List.get?_eq_getElem?, List.getElem?_set_eq_of_lt ws hlen]
  · intro j hj
    rw [List.get?_eq_getElem?, List.get?_eq_getElem?,
      List.getElem?_set_ne (fun he => hj he.symm)]
  · intro hR
    rw [hR] at hm
    cases hm
    rfl
  · intro hL
    rw [hL] at hm
    cases hm
    rfl

/-- Witness for C8: one step of `evenZeros` on the initial configuration of
input `"0"` writes back `'0'`, switches to `q1` and moves right. -/
theorem claim_C8_witness :
    get_next_configuration evenZeros ⟨"q0", ['B', '0', 'B'], 1⟩ =
      .ok { state := "q1", string_list := (['B', '0', 'B'] : List Sym).set 1 '0',
            position := 1 + Movement.value Movement.R } :=
  (claim_C8 evenZeros ⟨"q0", ['B', '0', 'B'], 1⟩ '0' ("q1") '0' ("R")
    Movement.R 1 (by decide) (by decide) (by decide) (by decide)).1

/-- C9: for every input that passes validation, `accepts_string` enters the
loop at the configuration with state `start`, tape
`[blank] + input characters + [blank]`, head at index `1`; for the empty
input the tape is exactly `[blank, blank]`. -/
theorem claim_C9 (tm : TuringMachine) (s : String) (fuel : Nat)
    (hvalid : string_is_valid tm s = true) :
    accepts_string tm s fuel = acceptsLoop tm (initialConfiguration tm s) fuel ∧
    (initialConfiguration tm s).state = tm.start ∧
    (initialConfiguration tm s).string_list = tm.blank :: s.toList ++ [tm.blank] ∧
    (initialConfiguration tm s).position = 1 ∧
    (s = ("") → (initialConfiguration tm s).string_list = [tm.blank, tm.blank]) := by
  refine ⟨by simp [accepts_string, hvalid], rfl, initial_string_list tm s, rfl, ?_⟩
  intro hs
  rw [hs, initial_string_list]
  rfl

/-- Witness for C9 at `evenZeros` with the empty input. -/
theorem claim_C9_witness :
    (initialConfiguration evenZeros ("")).string_list = ['B', 'B'] :=
  (claim_C9 evenZeros ("") 1 (by decide)).2.2.2.2 rfl

/-- C10: when the transition entry found for the current pair carries a
movement name other than `"R"` and `"L"`, the `Movement[...]` lookup raises
`KeyError`, which `accepts_string` handles exactly like an undefined
transition: the step reports `KeyError` and the run returns `Rejected`. -/
theorem claim_C10 (tm : TuringMachine) (c : Configuration) (fuel : Nat)
    (sym : Sym) (ns : State) (ws : Sym) (dir : String)
    (hend : c.state ∉ tm.ends) (hrej : c.state ≠ tm.reject)
    (hget : pyGet c.string_list c.position = some sym)
    (hδ : deltaApply tm c.state sym = some (ns, ws, dir))
    (hR : dir ≠ "R") (hL : dir ≠ "L") :
    get_next_configuration tm c = .error PyErr.KeyError ∧
    acceptsLoop tm c (fuel + 1) = some RunResult.Rejected := by
  have hm : movementFromName dir = none := by
    unfold movementFromName
    split
    · exact absurd rfl hR
    · exact absurd rfl hL
    · rfl
  have hstep : get_next_configuration tm c = .error PyErr.KeyError := by
    simp [get_next_configuration, hget, hδ, hm]
  exact ⟨hstep, by simp [acceptsLoop, hend, hrej, hstep]⟩

/-- Witness for C10 at `tmBadMove`, whose transitions carry the movement name
`"X"`. -/
theorem claim_C10_witness :
    acceptsLoop tmBadMove ⟨"q0", ['B', 'a', 'B'], 1⟩ 5 = some RunResult.Rejected :=
  (claim_C10 tmBadMove ⟨"q0", ['B', 'a', 'B'], 1⟩ 4 'a' ("qa") 'a' ("X")
    (by decide) (by decide) (by decide) (by decide) (by decide) (by decide)).2

/-- If the loop answers `Accepted`, some configuration with a state in `end`
is reached from the starting one by successful steps. -/
lemma acceptsLoop_accepted_reaches (tm : TuringMachine) :
    ∀ (n : Nat) (c : Configuration),
      acceptsLoop tm c n = some RunResult.Accepted →
      ∃ c', Reaches tm c c' ∧ c'.state ∈ tm.ends := by
  intro n
  induction n with
  | zero => intro c h; exact absurd h (by simp [acceptsLoop])
  | succ n ih =>
    intro c h
    by_cases hend : c.state ∈ tm.ends
    · exact ⟨c, Reaches.refl c, hend⟩
    · by_cases hrej : c.state = tm.reject
      · simp only [acceptsLoop] at h
        rw [if_neg hend, if_pos hrej] at h
        exact absurd h (by simp)
      · cases hstep : get_next_configuration tm c with
        | error e =>
          cases e <;> simp [acceptsLoop, hend, hrej, hstep] at h
        | ok c' =>
          obtain ⟨c'', hr, hc⟩ :=
            ih c' (by simpa [acceptsLoop, hend, hrej, hstep] using h)
          exact ⟨c'', Reaches.step c c' c'' hstep hr, hc⟩

/-- The caught `KeyError` of the loop never escapes as an exception
outcome. -/
lemma acceptsLoop_no_keyError (tm : TuringMachine) :
    ∀ (n : Nat) (c : Configuration),
      acceptsLoop tm c n ≠ some (RunResult.Exn PyErr.KeyError) := by
  intro n
  induction n with
  | zero => intro c h; exact absurd h (by simp [acceptsLoop])
  | succ n ih =>
    intro c h
    by_cases hend : c.state ∈ tm.ends
    · simp [acceptsLoop, hend] at h
    · by_cases hrej : c.state = tm.reject
      · simp only [acceptsLoop] at h
        rw [if_neg hend, if_pos hrej] at h
        exact absurd h (by simp)
      · cases hstep : get_next_configuration tm c with
        | error e =>
          cases e <;> simp [acceptsLoop, hend, hrej, hstep] at h
        | ok c' =>
          exact ih c' (by simpa [acceptsLoop, hend, hrej, hstep] using h)

/-- C1: for a valid machine and an input over `in_alph`: an `Accepted` run
reaches a configuration whose state is in `end`; entering the loop with a
state in `end` returns `Accepted`; entering it with the reject state (when
not accepting) returns `Rejected` before any further step; entering it with
no transition entry for the current pair returns `Rejected`; and the caught
`KeyError` — the internal signal for both undefined transition and explicit
reject — never escapes `accepts_string` as an exception outcome. -/
theorem claim_C1 (tm : TuringMachine) (s : String) (fuel : Nat)
    (_hvalid : tm_is_valid tm = true) (hs : string_is_valid tm s = true) :
    (accepts_string tm s fuel = some RunResult.Accepted →
      ∃ c', Reaches tm (initialConfiguration tm s) c' ∧ c'.state ∈ tm.ends) ∧
    (∀ (c : Configuration) (n : Nat), c.state ∈ tm.ends →
      acceptsLoop tm c (n + 1) = some RunResult.Accepted) ∧
    (∀ (c : Configuration) (n : Nat), c.state ∉ tm.ends → c.state = tm.reject →
      acceptsLoop tm c (n + 1) = some RunResult.Rejected) ∧
    (∀ (c : Configuration) (n : Nat) (sym : Sym), c.state ∉ tm.ends →
      c.state ≠ tm.reject → pyGet c.string_list c.position = some sym →
      deltaApply tm c.state sym = none →
      acceptsLoop tm c (n + 1) = some RunResult.Rejected) ∧
    accepts_string tm s fuel ≠ some (RunResult.Exn PyErr.KeyError) := by
  refine ⟨?_, ?_, ?_, ?_, ?_⟩
  · intro h
    rw [accepts_string, if_pos hs] at h
    exact acceptsLoop_accepted_reaches tm fuel (initialConfiguration tm s) h
  · intro c n hend
    simp [acceptsLoop, hend]
  · intro c n hend hrej
    simp only [acceptsLoop]
    rw [if_neg hend, if_pos hrej]
  · intro c n sym hend hrej hget hδ
    have hstep : get_next_configuration tm c = .error PyErr.KeyError := by
      simp [get_next_configuration, hget, hδ]
    simp [acceptsLoop, hend, hrej, hstep]
  · rw [accepts_string, if_pos hs]
    exact acceptsLoop_no_keyError tm fuel (initialConfiguration tm s)

/-- Witness for C1 at `evenZeros`: the loop entered at an accepting
configuration answers `Accepted`. -/
theorem claim_C1_witness :
    acceptsLoop evenZeros ⟨"qa", ['B', 'B'], 2⟩ 1 = some RunResult.Accepted :=
  (claim_C1 evenZeros ("00") 10 (by decide) (by decide)).2.1
    ⟨"qa", ['B', 'B'], 2⟩ 0 (by decide)

/-- C2 counterexample: on `tmRight` — a valid machine whose transitions
always move right — the empty input (trivially over `in_alph`) drives the
head past the last tape index; the claim says such a run returns `Rejected`,
but the next read raises `IndexError`, which the loop's `except KeyError`
does not catch, so the run fails with an uncaught exception instead. -/
theorem claim_C2_cex :
    accepts_string tmRight ("") 3 = some (RunResult.Exn PyErr.IndexError) ∧
    accepts_string tmRight ("") 10 ≠ some RunResult.Rejected ∧
    tm_is_valid tmRight = true := by decide

/-- C2 as amended: the engine indeed never extends the tape — a successful
step preserves the tape length, so every configuration reachable from the
initial one keeps length input + 2 — but walking off the tape is not an
undefined-transition rejection: a head at or beyond the tape length (or below
minus the tape length) makes the next read raise `IndexError`, which escapes
the loop uncaught as an exception outcome, while a negative head whose
magnitude is at most the tape length wraps around and reads from the right
end, letting the run continue. -/
theorem claim_C2_amended (tm : TuringMachine) (s : String)
    (c c' : Configuration) (n : Nat) :
    (get_next_configuration tm c = .ok c' →
      c'.string_list.length = c.string_list.length) ∧
    (Reaches tm (initialConfiguration tm s) c →
      c.string_list.length = s.length + 2) ∧
    ((c.string_list.length : Int) ≤ c.position ∨
        c.position < -(c.string_list.length : Int) →
      get_next_configuration tm c = .error PyErr.IndexError) ∧
    (-(c.string_list.length : Int) ≤ c.position → c.position < 0 →
      pyGet c.string_list c.position =
        c.string_list.get? ((c.string_list.length : Int) + c.position).toNat) ∧
    (c.state ∉ tm.ends → c.state ≠ tm.reject →
      get_next_configuration tm c = .error PyErr.IndexError →
      acceptsLoop tm c (n + 1) = some (RunResult.Exn PyErr.IndexError)) := by
  refine ⟨step_length tm c c', ?_, ?_, ?_, ?_⟩
  · intro hr
    rw [reaches_length tm (initialConfiguration tm s) c hr,
      initial_string_list tm s]
    simp only [List.length_cons, List.length_append, List.length_nil,
      String.length, String.toList]
  · intro hout
    have hidx : listIndex c.string_list.length c.position = none := by
      unfold listIndex
      rcases hout with hge | hlt
      · rw [if_neg, if_neg]
        · rintro ⟨-, h2⟩
          omega
        · rintro ⟨h1, h2⟩
          omega
      · rw [if_neg, if_neg]
        · rintro ⟨h1, -⟩
          omega
        · rintro ⟨h1, -⟩
          omega
    have hget : pyGet c.string_list c.position = none := by
      unfold pyGet
      rw [hidx]
    simp [get_next_configuration, hget]
  · intro hle hneg
    have hidx : listIndex c.string_list.length c.position =
        some ((c.string_list.length : Int) + c.position).toNat := by
      unfold listIndex
      rw [if_neg, if_pos ⟨hle, hneg⟩]
      rintro ⟨h1, -⟩
      omega
    unfold pyGet
    rw [hidx]
  · intro hend hrej hstep
    simp [acceptsLoop, hend, hrej, hstep]

/-- Witness for the amended C2: on the tape `['B', 'B']` a head at position
`2` raises `IndexError`, and the loop turns that into the uncaught-exception
outcome. -/
theorem claim_C2_amended_witness :
    get_next_configuration tmRight ⟨"q0", ['B', 'B'], 2⟩ =
        .error PyErr.IndexError ∧
      acceptsLoop tmRight ⟨"q0", ['B', 'B'], 2⟩ 1 =
        some (RunResult.Exn PyErr.IndexError) :=
  have h := claim_C2_amended tmRight ("") ⟨"q0", ['B', 'B'], 2⟩
    ⟨"q0", ['B', 'B'], 2⟩ 0
  ⟨h.2.2.1 (by decide), h.2.2.2.2 (by decide) (by decide) (h.2.2.1 (by decide))⟩

/-- C3: `accepted_language` as written cannot yield anything — its body's
first statement calls the nonexistent attribute `self.language` (the method
is `_language`), so the very first pull raises `AttributeError` instead of
producing the first accepted string; with the name slips repaired it does
filter the enumeration through the engine, and on the even-zeros machine the
first three elements are `""`, `"00"`, `"0000"` in that order. -/
theorem claim_C3 :
    accepted_language_asWritten evenZeros 1 = .error PyErr.AttributeError ∧
    (accepted_language_fixed evenZeros 7 30).take 3 =
      [(""), ("00"), ("0000")] := ⟨rfl, rfl⟩

/-- C4: the enumeration as written cannot produce the promised sequence —
`_language` evaluates the nonexistent attribute `self.get_language_of_size`
(the method is `_get_language_of_size`) before its first yield, and
`_get_language_of_size` makes the same slip in its recursive call, so for a
nonempty alphabet any length `n ≥ 1` raises `AttributeError`; with the name
slip repaired, the enumeration over `['a', 'b']` does begin with the ten
strings the claim lists, in that order. -/
theorem claim_C4 :
    language_asWritten tmAB 1 = .error PyErr.AttributeError ∧
    get_language_of_size_asWritten tmAB 1 = .error PyErr.AttributeError ∧
    (language_fixed tmAB 4).take 10 =
      [(""), ("a"), ("b"), ("aa"), ("ab"), ("ba"), ("bb"),
        ("aaa"), ("aab"), ("aba")] := ⟨rfl, rfl, rfl⟩

end TuringSim
